import Mathlib

/-!
Shallow embedding of the Remindly reminder bot (files `db.py`,
`scheduler_core.py`, `main.py` of the repository), together with proofs
about the claims of the specification.

Conventions of the embedding:
* instants (`datetime` values in UTC) are modelled as `Nat` seconds since
  the Unix epoch; cron has minute granularity, so cron results are
  multiples of 60;
* fallible Python code is modelled with `Option`/`Except`; a Python
  exception that escapes a function is modelled explicitly (see
  `CalcResult`);
* the Postgres/Supabase reminder store is modelled as a `List Reminder`;
  SQL `NULL` columns are `Option` fields;
* string processing is done on `List Char` (structurally recursive, so
  concrete runs reduce in the kernel).
-/

set_option maxRecDepth 100000

namespace Remindly

/-- Lower-case a character the way Python's `str.lower` does on the
alphabets this code base uses (ASCII and the Russian Cyrillic block). -/
def pyLowerChar (c : Char) : Char :=
  if 'A' ≤ c ∧ c ≤ 'Z' then Char.ofNat (c.toNat + 32)
  else if c.toNat ≥ 0x410 ∧ c.toNat ≤ 0x42F then Char.ofNat (c.toNat + 0x20)
  else if c.toNat = 0x401 then Char.ofNat 0x451
  else c

/-- Model of Python `str.lower()` (restricted to ASCII plus Cyrillic,
which covers every string this code base manipulates). -/
def pyLower (s : String) : String :=
  String.mk (s.data.map pyLowerChar)

/-- Drop leading and trailing whitespace from a character list. -/
def trimChars (cs : List Char) : List Char :=
  ((cs.dropWhile Char.isWhitespace).reverse.dropWhile Char.isWhitespace).reverse

/-- Model of Python `str.strip()`. -/
def pyStrip (s : String) : String := String.mk (trimChars s.data)

/-- Split a character list at every separator character (model of
Python `str.split(sep)` for a one-character separator, and of
`String.split`): occurrences of the separator delimit the pieces, and
leading/trailing/adjacent separators produce empty pieces. -/
def splitCharsAux (p : Char → Bool) : List Char → List Char → List (List Char)
  | [], acc => [acc.reverse]
  | c :: rest, acc =>
    if p c then acc.reverse :: splitCharsAux p rest []
    else splitCharsAux p rest (c :: acc)

def splitChars (p : Char → Bool) (cs : List Char) : List (List Char) :=
  splitCharsAux p cs []

/-- Fold a digit list into a number; `none` if a non-digit appears or the
list is empty. -/
def digitsToNat? (cs : List Char) : Option Nat :=
  if cs.isEmpty then none
  else cs.foldl
    (fun acc c =>
      match acc with
      | none => none
      | some n => if c.isDigit then some (n * 10 + (c.toNat - 48)) else none)
    (some 0)

/-- Model of Python `int(s)` on strings: optional surrounding whitespace,
optional sign, then decimal digits; `none` models `ValueError`. -/
def pyInt? (s : String) : Option Int :=
  match trimChars s.data with
  | '+' :: rest => (digitsToNat? rest).map (fun n => (n : Int))
  | '-' :: rest => (digitsToNat? rest).map (fun n => -(n : Int))
  | cs => (digitsToNat? cs).map (fun n => (n : Int))

/-! ## Model of the `croniter` dependency

`croniter(expr, base).get_next(datetime)` is modelled by `cronNext`.
The model covers the five-field cron grammar actually produced and
consumed by this repository (`normalize_cron` emits only `* * * * *`,
`*/N * * * *`, `0 */N * * *` and `MM HH * * *`); field values may be
`*`, `*/N`, a number, or a range `a-b`.  Expressions whose
day-of-month / month / day-of-week fields are not `*` are treated as
not evaluable by the model (`cronNext` returns `none`, the same way an
unparseable expression does). -/

inductive CronField where
  | all : CronField
  | step : Nat → CronField
  | exact : Nat → CronField
  | rng : Nat → Nat → CronField
deriving DecidableEq, Repr

/-- Parse one cron field whose legal values lie in `[lo, hi]`. -/
def parseCronField (lo hi : Nat) (cs : List Char) : Option CronField :=
  match cs with
  | ['*'] => some .all
  | '*' :: '/' :: rest =>
    match digitsToNat? rest with
    | some n => if 1 ≤ n ∧ n ≤ hi then some (.step n) else none
    | none => none
  | _ =>
    if cs.contains '-' then
      match splitChars (· = '-') cs with
      | [a, b] =>
        match digitsToNat? a, digitsToNat? b with
        | some x, some y => if lo ≤ x ∧ x ≤ y ∧ y ≤ hi then some (.rng x y) else none
        | _, _ => none
      | _ => none
    else
      match digitsToNat? cs with
      | some n => if lo ≤ n ∧ n ≤ hi then some (.exact n) else none
      | none => none

structure CronSpec where
  minute : CronField
  hour : CronField
  dom : CronField
  month : CronField
  dow : CronField
deriving DecidableEq, Repr

/-- Split a cron expression into its five fields and parse them;
`none` models `CroniterBadCronError`. -/
def parseCronExpr (s : String) : Option CronSpec :=
  match (splitChars (fun c => c = ' ' ∨ c = '\t') s.data).filter (· ≠ []) with
  | [mi, h, dm, mo, dw] =>
    match parseCronField 0 59 mi, parseCronField 0 23 h, parseCronField 1 31 dm,
          parseCronField 1 12 mo, parseCronField 0 7 dw with
    | some fmi, some fh, some fdm, some fmo, some fdw =>
      some ⟨fmi, fh, fdm, fmo, fdw⟩
    | _, _, _, _, _ => none
  | _ => none

def fieldMatches : CronField → Nat → Bool
  | .all, _ => true
  | .step n, v => v % n = 0
  | .exact n, v => v = n
  | .rng a b, v => a ≤ v ∧ v ≤ b

/-- Does the minute-aligned instant `t` satisfy the minute and hour
fields of the spec? (day fields are required to be `*`). -/
def cronMatchesAt (sp : CronSpec) (t : Nat) : Bool :=
  fieldMatches sp.minute ((t / 60) % 60) && fieldMatches sp.hour ((t / 3600) % 24)

/-- Bounded search for the first matching minute-aligned instant. -/
def cronSearch (sp : CronSpec) : Nat → Nat → Option Nat
  | 0, _ => none
  | fuel + 1, t => if cronMatchesAt sp t then some t else cronSearch sp fuel (t + 60)

/-- Model of `croniter(expr, base).get_next(datetime)`: the smallest
minute-aligned instant strictly greater than `base` that matches the
expression; `none` when the expression cannot be evaluated. -/
def cronNext (expr : String) (base : Nat) : Option Nat :=
  match parseCronExpr expr with
  | none => none
  | some sp =>
    if sp.dom = .all ∧ sp.month = .all ∧ sp.dow = .all then
      cronSearch sp 1442 (60 * (base / 60 + 1))
    else none

/-! ## Calendar helpers for `_calc_next_for_kind` -/

/-- Python `datetime.weekday()` (Mon = 0 … Sun = 6) of the UTC day that
contains instant `t`; 1970-01-01 was a Thursday (= 3). -/
def weekdayOf (t : Nat) : Nat := (t / 86400 + 3) % 7

/-- Fueled unrolling of the `while` loops in `_calc_next_for_kind` that
add whole days while the weekday satisfies `cond`; both loops run at
most six iterations, so fuel 7 is exact. -/
def skipDaysWhile (cond : Nat → Bool) : Nat → Nat → Nat
  | 0, c => c
  | fuel + 1, c => if cond (weekdayOf c) then skipDaysWhile cond fuel (c + 86400) else c

/-- Model of `UniversalReminderScheduler._parse_hhmm`: strip, split on
every `:`, require exactly two parts, convert each with `int()`. -/
def parseHHMM (s : String) : Option (Int × Int) :=
  match splitChars (· = ':') (trimChars s.data) with
  | [a, b] =>
    match pyInt? (String.mk a), pyInt? (String.mk b) with
    | some x, some y => some (x, y)
    | _, _ => none
  | _ => none

/-- Result of a Python call that may raise an exception not caught
inside the callee: `raised` models the escaping exception. -/
inductive CalcResult where
  | raised : CalcResult
  | value : Option Nat → CalcResult
deriving DecidableEq, Repr

/-- Model of `UniversalReminderScheduler._calc_next_for_kind`.
For cron kinds the `croniter` call sits inside a `try/except`, so a bad
expression yields `value none`; for the `HH:MM` kinds the
`datetime.replace` call is *not* guarded, so an out-of-range hour or
minute raises (`.raised`). -/
def calcNextForKind (kind : Option String) (cronExpr : Option String) (now : Nat) : CalcResult :=
  let k := pyLower (pyStrip (kind.getD ""))
  let ce := pyStrip (cronExpr.getD "")
  if k = "" ∨ k = "once" then .value none
  else if k = "repeat_cron" ∨ k = "cron" then
    .value (cronNext ce (now + 1))
  else
    match parseHHMM ce with
    | none => .value none
    | some (hh, mm) =>
      if hh < 0 ∨ 24 ≤ hh ∨ mm < 0 ∨ 60 ≤ mm then .raised
      else
        let c0 : Nat := (now / 86400) * 86400 + hh.toNat * 3600 + mm.toNat * 60
        let c : Nat := if c0 ≤ now then c0 + 86400 else c0
        if k = "repeat_daily" then .value (some c)
        else if k = "repeat_weekdays" then .value (some (skipDaysWhile (fun w => 5 ≤ w) 7 c))
        else if k = "repeat_weekend" then .value (some (skipDaysWhile (fun w => w < 5) 7 c))
        else .value none

/-! ## Model of `db.normalize_cron` -/

/-- Decimal digits of a `Nat` (20 digits of fuel is enough for every
number in this development). -/
def natToCharsAux : Nat → Nat → List Char → List Char
  | 0, _, acc => acc
  | fuel + 1, n, acc =>
    let d := Char.ofNat (n % 10 + 48)
    if n < 10 then d :: acc else natToCharsAux fuel (n / 10) (d :: acc)

/-- Model of Python `str(n)` for a non-negative integer. -/
def natToStr (n : Nat) : String := String.mk (natToCharsAux 20 n [])

/-- Model of Python `str(i)` for an integer. -/
def intToStr (i : Int) : String :=
  if i < 0 then String.mk ('-' :: natToCharsAux 20 i.natAbs []) else natToStr i.natAbs

/-- Match a literal character sequence at the head of the input,
returning the rest. -/
def dropLit : List Char → List Char → Option (List Char)
  | [], cs => some cs
  | l :: ls, c :: cs => if c = l then dropLit ls cs else none
  | _ :: _, [] => none

/-- Match `\s+` (at least one whitespace character) and skip it. -/
def dropWs1 (cs : List Char) : Option (List Char) :=
  match cs with
  | c :: rest => if c.isWhitespace then some (rest.dropWhile Char.isWhitespace) else none
  | [] => none

/-- Match `\d{1,2}` greedily (one or two digits) and return its value
with the rest of the input. -/
def takeDigits12 : List Char → Option (Nat × List Char)
  | c :: rest =>
    if c.isDigit then
      match rest with
      | d :: rest2 =>
        if d.isDigit then some ((c.toNat - 48) * 10 + (d.toNat - 48), rest2)
        else some (c.toNat - 48, rest)
      | [] => some (c.toNat - 48, [])
    else none
  | [] => none

/-- Full-string match of `db.py`'s regexes
`^каждые?\s+(\d{1,2})\s*<unit>(<suffix alternatives>)$` against an
already lower-cased, stripped input: literal `кажды`, optional `е`,
whitespace, one or two digits, optional whitespace, the unit literal,
then exactly one of the allowed endings. -/
def matchEvery (unitLit : List Char) (sfx : List (List Char)) (cs : List Char) : Option Nat :=
  match dropLit ['к', 'а', 'ж', 'д', 'ы'] cs with
  | none => none
  | some cs1 =>
    let cs2 := match cs1 with
      | 'е' :: r => r
      | _ => cs1
    match dropWs1 cs2 with
    | none => none
    | some cs3 =>
      match takeDigits12 cs3 with
      | none => none
      | some (n, cs4) =>
        let cs5 := cs4.dropWhile Char.isWhitespace
        match dropLit unitLit cs5 with
        | none => none
        | some cs6 => if sfx.any (fun x => cs6 = x) then some n else none

/-- Split at the first occurrence of `sep` (Python `s.split(sep, 1)`
when the separator occurs); `none` when `sep` does not occur. -/
def breakAtFirst (sep : Char) : List Char → Option (List Char × List Char)
  | [] => none
  | c :: rest =>
    if c = sep then some ([], rest)
    else (breakAtFirst sep rest).map (fun p => (c :: p.1, p.2))

/-- The `HH:MM` branch at the end of `normalize_cron`: if the (already
lower-cased, stripped, `ежедневно`-trimmed) input contains `:`, try to
read the two integer parts; in range, rewrite to `MM HH * * *`,
otherwise return the original expression unchanged. -/
def normalizeColonStage (expr : String) (cs : List Char) : String :=
  match breakAtFirst ':' cs with
  | none => expr
  | some (a, b) =>
    match pyInt? (String.mk a), pyInt? (String.mk b) with
    | some hh, some mm =>
      if 0 ≤ hh ∧ hh < 24 ∧ 0 ≤ mm ∧ mm < 60 then
        natToStr mm.toNat ++ " " ++ natToStr hh.toNat ++ " * * *"
      else expr
    | _, _ => expr

/-- The `ежедневно HH:MM` / `HH:MM` tail of `normalize_cron`: strip a
leading `ежедневно` (with surrounding whitespace) and fall into the
colon branch. -/
def normalizeTailStage (expr : String) (s : String) : String :=
  match dropLit ['е', 'ж', 'е', 'д', 'н', 'е', 'в', 'н', 'о'] s.data with
  | some rest => normalizeColonStage expr (trimChars rest)
  | none => normalizeColonStage expr s.data

/-- The `каждые N час(ов|а|)` branch of `normalize_cron`. -/
def normalizeHourStage (expr : String) (s : String) : String :=
  match matchEvery ['ч', 'а', 'с'] [['о', 'в'], ['а'], []] s.data with
  | some n =>
    if 1 ≤ n ∧ n ≤ 23 then "0 */" ++ natToStr n ++ " * * *"
    else normalizeTailStage expr s
  | none => normalizeTailStage expr s

/-- Model of `db.normalize_cron`: rewrite the human-friendly Russian
templates to five-field cron, otherwise return the expression
unchanged. -/
def normalizeCron (expr : String) : String :=
  let s := pyLower (pyStrip expr)
  if s = "каждую минуту" then "* * * * *"
  else
    match matchEvery ['м', 'и', 'н'] [['у', 'т'], ['у', 'т', 'ы'], ['у', 'т', 'а'], []] s.data with
    | some n =>
      if 1 ≤ n ∧ n ≤ 59 then "*/" ++ natToStr n ++ " * * * *"
      else normalizeHourStage expr s
    | none => normalizeHourStage expr s

example : normalizeCron "каждую минуту" = "* * * * *" := by decide
example : normalizeCron "Каждые 15 минут" = "*/15 * * * *" := by decide
example : normalizeCron "каждые 2 часа" = "0 */2 * * *" := by decide
example : normalizeCron "ежедневно 9:30" = "30 9 * * *" := by decide
example : normalizeCron "09:05" = "5 9 * * *" := by decide
example : normalizeCron "25:70" = "25:70" := by decide
example : normalizeCron "*/15 * * * *" = "*/15 * * * *" := by decide
example : normalizeCron "nonsense" = "nonsense" := by decide

/-! ## The reminder store -/

/-- One row of `public.reminders` (column list documented in
`scheduler_core.py` and `db.py`). -/
structure Reminder where
  id : String
  user_id : Int
  chat_id : Int
  text : String
  kind : Option String
  cron_expr : Option String
  remind_at : Option Nat
  next_at : Option Nat
  paused : Bool
  created_by : Option Int
  created_at : Nat
deriving DecidableEq, Repr

/-- `COALESCE(next_at, remind_at)`. -/
def coalesceAt (r : Reminder) : Option Nat :=
  match r.next_at with
  | some t => some t
  | none => r.remind_at

/-- Comparison used to model the `ORDER BY remind_at NULLS FIRST,
next_at NULLS FIRST, created_at` of `get_active_reminders_for_chat`
(SQL `NULL` sorts first under `nullsfirst=True`). -/
def optLE : Option Nat → Option Nat → Bool
  | none, _ => true
  | some _, none => false
  | some a, some b => a ≤ b

def remListOrd (a b : Reminder) : Bool :=
  if a.remind_at = b.remind_at then
    if a.next_at = b.next_at then a.created_at ≤ b.created_at
    else optLE a.next_at b.next_at
  else optLE a.remind_at b.remind_at

/-- Model of `db.get_reminder_by_id` (`.eq("id", …).limit(1)`). -/
def getReminderById (db : List Reminder) (rid : String) : Option Reminder :=
  db.find? (fun r => r.id == rid)

/-- Model of `db.get_active_reminders_for_chat`. -/
def getActiveRemindersForChat (db : List Reminder) (chat : Int) (includePaused : Bool) :
    List Reminder :=
  let q := db.filter (fun r => r.chat_id == chat)
  let q := if includePaused then q else q.filter (fun r => !r.paused)
  q.insertionSort (fun a b => remListOrd a b = true)

/-- Model of `db.delete_reminder_by_id` (and of the scheduler's
`DELETE FROM reminders WHERE id = %s`). -/
def deleteById (db : List Reminder) (rid : String) : List Reminder :=
  db.filter (fun x => x.id ≠ rid)

/-- Model of `UPDATE reminders SET next_at = %s WHERE id = %s`. -/
def setNextAt (db : List Reminder) (rid : String) (v : Option Nat) : List Reminder :=
  db.map (fun x => if x.id = rid then { x with next_at := v } else x)

/-- Model of `UPDATE reminders SET next_at = NULL, paused = true WHERE id = %s`. -/
def pauseClear (db : List Reminder) (rid : String) : List Reminder :=
  db.map (fun x => if x.id = rid then { x with next_at := none, paused := true } else x)

/-- Model of `db.add_reminder` (a fresh row id is supplied by the
caller, standing for the uuid the store generates). -/
def addReminder (db : List Reminder) (uid chat : Int) (text : String) (remindAt : Nat)
    (createdBy : Option Int) (now : Nat) (newId : String) : List Reminder :=
  let creator : Int := match createdBy with
    | some c => if c = 0 then uid else c
    | none => uid
  db ++ [⟨newId, uid, chat, text, some "once", none, some remindAt, none, false, some creator, now⟩]

/-- Model of `db.add_recurring_reminder`: normalise the expression,
validate it through the cron evaluator (raising `ValueError`, the
`.error` case, when it cannot produce a next instant — in which case
nothing is inserted), otherwise insert a `kind='cron'` row whose
`next_at` is the caller's value or the computed next instant. -/
def addRecurringReminder (db : List Reminder) (uid chat : Int) (text : String)
    (cronExprRaw : String) (nextAt : Option Nat) (createdBy : Option Int) (now : Nat)
    (newId : String) : Except Unit (List Reminder) :=
  let ce := normalizeCron cronExprRaw
  match cronNext ce now with
  | none => .error ()
  | some computed =>
    let nxt := nextAt.getD computed
    let creator : Int := match createdBy with
      | some c => if c = 0 then uid else c
      | none => uid
    .ok (db ++ [⟨newId, uid, chat, text, some "cron", some ce, none, some nxt, false,
      some creator, now⟩])

/-- Window membership `lo ≤ t ≤ hi` for a nullable column (SQL
comparisons with `NULL` exclude the row). -/
def optBetween (o : Option Nat) (lo hi : Nat) : Bool :=
  match o with
  | some t => lo ≤ t && t ≤ hi
  | none => false

/-- Model of `db.get_due_once_and_recurring`: the once rows with
`remind_at ∈ [now - window, now]` and the cron rows with
`next_at ∈ [now - window, now]`, both non-paused. -/
def getDueOnceAndRecurring (windowMinutes : Nat) (db : List Reminder) (now : Nat) :
    List Reminder × List Reminder :=
  let win := now - windowMinutes * 60
  ( db.filter (fun r => r.kind == some "once" && !r.paused && optBetween r.remind_at win now)
  , db.filter (fun r => r.kind == some "cron" && !r.paused && optBetween r.next_at win now) )

/-- Model of `db.advance_recurring`: step the cron one tick forward
from "now" (not from the stored `next_at`); `none` models the
`croniter` exception escaping on a bad expression. -/
def advanceRecurring (db : List Reminder) (rid : String) (cronExpr : String) (now : Nat) :
    Option (List Reminder) :=
  (cronNext cronExpr now).map (fun nxt => setNextAt db rid (some nxt))

/-! ## The poll loop (`UniversalReminderScheduler._check_reminders`) -/

/-- The processed kind tag `(kind or "").strip().lower()`. -/
def kindTag (r : Reminder) : String := pyLower (pyStrip (r.kind.getD ""))

/-- Row filter of the backfill query: active repeats with `NULL`
`next_at` (`paused = false AND kind IS NOT NULL AND lower(kind) <>
'once' AND next_at IS NULL`). -/
def backfillPred (r : Reminder) : Bool :=
  !r.paused && r.kind.isSome && (pyLower (r.kind.getD "") != "once") && r.next_at.isNone

/-- One backfill item: a raised exception from the calculator escapes
`_backfill_next_at_for_active_repeats` and aborts the whole tick, so
the flag short-circuits the fold while keeping the updates already
committed. -/
def backfillStep (now : Nat) : (List Reminder × Bool) → Reminder → (List Reminder × Bool)
  | (st, true), _ => (st, true)
  | (st, false), r =>
    match calcNextForKind r.kind r.cron_expr now with
    | .raised => (st, true)
    | .value none => (st, false)
    | .value (some v) => (setNextAt st r.id (some v), false)

/-- Model of `_backfill_next_at_for_active_repeats` (`LIMIT 100`);
the boolean is true when a calculator exception escaped. -/
def backfillNextAt (st : List Reminder) (now : Nat) : List Reminder × Bool :=
  ((st.filter backfillPred).take 100).foldl (backfillStep now) (st, false)

/-- Is the row due (`COALESCE(next_at, remind_at) <= now`)? -/
def dueAt (r : Reminder) (now : Nat) : Bool :=
  match coalesceAt r with
  | some t => t ≤ now
  | none => false

/-- Model of the due query of `_check_reminders`: non-paused rows with
`COALESCE(next_at, remind_at) <= now`, ordered by that instant
ascending, `LIMIT 50`.  Note: *no* lower bound. -/
def selectDue (st : List Reminder) (now : Nat) : List Reminder :=
  ((st.filter (fun r => !r.paused && dueAt r now)).insertionSort
    (fun a b => (coalesceAt a).getD 0 ≤ (coalesceAt b).getD 0)).take 50

/-- Post-processing of one delivered row (step 4 of
`_check_reminders`): delete `once` rows; recompute `next_at` for
repeats, pausing the row when the calculator returns `None`; a raised
calculator exception is caught by the per-item handler and leaves the
row unchanged.  The delivery outcome is not consulted. -/
def postOne (now : Nat) (st : List Reminder) (r : Reminder) : List Reminder :=
  let k := kindTag r
  if k = "" ∨ k = "once" then deleteById st r.id
  else
    match calcNextForKind (some k) r.cron_expr now with
    | .raised => st
    | .value none => pauseClear st r.id
    | .value (some v) => setNextAt st r.id (some v)

structure TickResult where
  state : List Reminder
  selected : List Reminder
  sent : List (String × Bool)
  aborted : Bool
deriving DecidableEq, Repr

/-- Model of one iteration of `_check_reminders`: backfill, select the
due batch, send each row (`ok` gives the delivery outcome per row,
which the code only logs), then post-process each row.  When the
backfill raises, the outer `except` abandons the whole iteration. -/
def runTick (st : List Reminder) (now : Nat) (ok : String → Bool) : TickResult :=
  let bf := backfillNextAt st now
  if bf.2 then ⟨bf.1, [], [], true⟩
  else
    let rows := selectDue bf.1 now
    ⟨rows.foldl (postOne now) bf.1, rows, rows.map (fun r => (r.id, ok r.id)), false⟩

/-! ## User preferences and the selector helpers -/

/-- One row of `user_prefs`. -/
structure UserPrefs where
  user_id : Int
  tz_name : Option String
  quiet_from : Option Int
  quiet_to : Option Int
deriving DecidableEq, Repr

/-- Model of `db.set_quiet_hours`: upsert the quiet window keyed on
`user_id` (other columns of an existing row are preserved). -/
def setQuietHours (ps : List UserPrefs) (uid : Int) (qf qt : Option Int) : List UserPrefs :=
  match ps.find? (fun p => p.user_id == uid) with
  | some old => ps.filter (fun p => p.user_id ≠ uid) ++ [⟨uid, old.tz_name, qf, qt⟩]
  | none => ps ++ [⟨uid, none, qf, qt⟩]

/-- Modelled from the spec: the Quiet-Hours Gate's window-membership
test (spec §4.2, wrap-around supported).  No such gate exists anywhere
in the source — `set_quiet_hours` stores the window and nothing in the
delivery pipeline ever reads it — so this definition follows the
spec's words and is used only to state what the code fails to do. -/
def specQuietContains (qf qt h : Nat) : Bool :=
  if qf < qt then qf ≤ h ∧ h < qt else qf ≤ h ∨ h < qt

inductive PySelector where
  | str : String → PySelector
  | int : Int → PySelector
deriving DecidableEq, Repr

/-- The positional-index branch of `resolve_selector_to_id`. -/
def resolveIndexPath (db : List Reminder) (chat : Int) (uid : Option Int)
    (idxOpt : Option Int) : Option String :=
  match idxOpt with
  | none => none
  | some idx =>
    if idx ≤ 0 then none
    else
      let rows0 := getActiveRemindersForChat db chat true
      let rows : List Reminder := match uid with
        | some u => rows0.filter (fun r => r.created_by == some u)
        | none => rows0
      if idx.toNat ≤ rows.length then (rows.get? (idx.toNat - 1)).map (·.id) else none

/-- The UUID branch of `resolve_selector_to_id`: look the row up by id
and validate chat (and creator, when given). -/
def resolveUuidPath (db : List Reminder) (chat : Int) (uid : Option Int) (s : String) :
    Option String :=
  match getReminderById db s with
  | some row =>
    if row.chat_id = chat ∧ (uid = none ∨ row.created_by = uid) then some row.id
    else none
  | none => none

/-- Model of `db.resolve_selector_to_id`: a string containing `-` is
treated as a UUID and validated against chat (and creator, when
given); anything else must parse as a positive index into the chat's
ordered reminder list, filtered by creator when given. -/
def resolveSelectorToId (db : List Reminder) (chat : Int) (sel : PySelector)
    (uid : Option Int) : Option String :=
  match sel with
  | .str s =>
    if s.data.contains '-' then resolveUuidPath db chat uid s
    else resolveIndexPath db chat uid (pyInt? s)
  | .int n => resolveIndexPath db chat uid (some n)

/-! ## The tournament (fixed-slot) scheduler -/

/-- The six fixed MSK notification slots of `scheduler_core.py`. -/
def TOURNAMENT_MINUTES : List (Nat × Nat) :=
  [(13, 55), (15, 55), (17, 55), (19, 55), (21, 55), (23, 55)]

/-- Python `f"{n:02d}"` for the slot components. -/
def pad2 (n : Nat) : String :=
  if n < 10 then String.mk ('0' :: natToCharsAux 20 n []) else natToStr n

/-- The APScheduler job id `f"tour_{chat_id}_{hour:02d}{minute:02d}"`. -/
def jobId (chat : Int) (slot : Nat × Nat) : String :=
  "tour_" ++ intToStr chat ++ "_" ++ pad2 slot.1 ++ pad2 slot.2

/-- Model of `TournamentScheduler._register_daily_jobs_for_chat`: for
each slot, remove any job with the derived id and add it back
(`replace_existing=True`).  The job store is modelled by the list of
job ids. -/
def registerDailyJobsForChat (chat : Int) (jobs : List String) : List String :=
  TOURNAMENT_MINUTES.foldl
    (fun js slot => js.filter (· ≠ jobId chat slot) ++ [jobId chat slot]) jobs

/-- Model of `TournamentScheduler._ensure_tournament_jobs`: re-register
the daily jobs of every currently subscribed chat.  Jobs of chats no
longer subscribed are left alone. -/
def ensureTournamentJobs (subscribedChats : List Int) (jobs : List String) : List String :=
  subscribedChats.foldl (fun js c => registerDailyJobsForChat c js) jobs

/-- Subscription rows `(user_id, chat_id)` of `tournament_subscribers`
plus the in-memory APScheduler job store. -/
structure TournamentState where
  subscribers : List (Int × Int)
  jobs : List String
deriving DecidableEq, Repr

/-- Model of `db.set_tournament_subscription` (the
`tournament_subscribers` branch): subscribe upserts a `(user_id,
chat_id)` row (user 0 when none is given), unsubscribe deletes that
row.  The scheduler's job store is untouched. -/
def setTournamentSubscription (st : TournamentState) (chat : Int) (value : Bool)
    (userId : Option Int) : TournamentState :=
  let uid := userId.getD 0
  if value then
    { st with subscribers := st.subscribers.filter (fun p => p ≠ (uid, chat)) ++ [(uid, chat)] }
  else
    { st with subscribers := st.subscribers.filter (fun p => ¬(p.2 = chat ∧ p.1 = uid)) }

/-- Model of `db.get_tournament_subscribed_chats` (chat ids of all
subscription rows). -/
def getTournamentSubscribedChats (st : TournamentState) : List Int :=
  st.subscribers.map (·.2)

/-- One run of the periodic reconciliation job. -/
def reconcileTournament (st : TournamentState) : TournamentState :=
  { st with jobs := ensureTournamentJobs (getTournamentSubscribedChats st) st.jobs }

/-- The advancement rule claimed by the spec (claim C1): the new next
trigger is obtained by advancing the recurrence rule from the
reminder's *previous* `next_trigger_at`.  Stated from the spec's words,
for comparison with the code's behaviour (which advances from the
current wall-clock time). -/
def specAdvanceFromPrevious (rule : String) (prevNextAt : Nat) : Option Nat :=
  cronNext rule prevNextAt

/-! ## Concrete fixtures used by counterexamples and witnesses -/

/-- A recurring `*/15` reminder whose `next_at = 0` is selected late
(16 minutes after its trigger instant). -/
def c1late : Reminder :=
  ⟨"a", 1, 10, "t", some "cron", some "*/15 * * * *", none, some 0, false, some 1, 0⟩

/-- A due once reminder whose delivery will fail. -/
def c2item : Reminder :=
  ⟨"o", 1, 10, "t", some "once", none, some 100, none, false, some 1, 0⟩

/-- A due once reminder owned by user 42 (who has quiet hours 23→7). -/
def c3item : Reminder :=
  ⟨"q", 42, 5, "t", some "once", none, some 72000, none, false, some 42, 0⟩

/-- A recurring reminder with an in-range-parse but out-of-range
`HH:MM` rule: `_parse_hhmm` accepts `25:99`, and `datetime.replace`
then raises. -/
def c5item : Reminder :=
  ⟨"b", 1, 10, "t", some "repeat_daily", some "25:99", none, some 100, false, some 1, 0⟩

/-- A recurring reminder with an unparseable cron rule (the case the
pause safeguard does handle). -/
def c5cronItem : Reminder :=
  ⟨"c", 1, 10, "t", some "cron", some "oops", none, some 100, false, some 1, 0⟩

/-- A once reminder far older than the 10-minute catch-up window. -/
def c6old : Reminder :=
  ⟨"w", 1, 10, "t", some "once", none, some 1000, none, false, some 1, 0⟩

/-- A once reminder exactly at the catch-up boundary `now - window`
for `now = 2000`. -/
def c6boundary : Reminder :=
  ⟨"e", 1, 10, "t", some "once", none, some 1400, none, false, some 1, 0⟩

example : cronNext "*/15 * * * *" 2 = some 900 := by decide
example : cronNext "*/15 * * * *" 961 = some 1800 := by decide
example : cronNext "30 9 * * *" 0 = some 34200 := by decide
example : cronNext "nonsense" 0 = none := by decide
example : calcNextForKind (some "repeat_daily") (some "25:99") 200 = .raised := by decide
example : calcNextForKind (some "repeat_daily") (some "09:30") 0 = .value (some 34200) := by decide
example : calcNextForKind (some "cron") (some "*/15 * * * *") 1 = .value (some 900) := by decide

/-! ## Lemmas about the post-processing fold -/

theorem id_of_mem_map_preserve {st : List Reminder} {f : Reminder → Reminder}
    (hf : ∀ y, (f y).id = y.id) {x : Reminder} (hx : x ∈ st.map f) :
    ∃ y ∈ st, x.id = y.id := by
  rcases List.mem_map.mp hx with ⟨y, hy, hxy⟩
  refine ⟨y, hy, ?_⟩
  rw [← hxy]
  exact hf y

theorem postOne_id_ne {now : Nat} {st : List Reminder} {r : Reminder} {i : String}
    (h : ∀ x ∈ st, x.id ≠ i) : ∀ x ∈ postOne now st r, x.id ≠ i := by
  intro x hx
  simp only [postOne] at hx
  split at hx
  · exact h x (List.mem_filter.mp hx).1
  · split at hx
    · exact h x hx
    · simp only [pauseClear] at hx
      rcases id_of_mem_map_preserve
        (fun y => by by_cases hh : y.id = r.id <;> simp [hh]) hx with ⟨y, hy, hxy⟩
      rw [hxy]; exact h y hy
    · simp only [setNextAt] at hx
      rcases id_of_mem_map_preserve
        (fun y => by by_cases hh : y.id = r.id <;> simp [hh]) hx with ⟨y, hy, hxy⟩
      rw [hxy]; exact h y hy

theorem postOne_once_id_ne {now : Nat} {st : List Reminder} {r : Reminder}
    (hk : kindTag r = "" ∨ kindTag r = "once") :
    ∀ x ∈ postOne now st r, x.id ≠ r.id := by
  intro x hx
  simp only [postOne, deleteById] at hx
  rw [if_pos hk] at hx
  simpa using (List.mem_filter.mp hx).2

theorem foldl_postOne_id_ne {now : Nat} (rows : List Reminder) (st : List Reminder)
    (i : String) (h : ∀ x ∈ st, x.id ≠ i) :
    ∀ x ∈ rows.foldl (postOne now) st, x.id ≠ i := by
  induction rows generalizing st with
  | nil => exact h
  | cons a rows ih => exact ih _ (postOne_id_ne h)

theorem foldl_postOne_once_absent {now : Nat} {r : Reminder}
    (hk : kindTag r = "" ∨ kindTag r = "once") :
    ∀ rows : List Reminder, r ∈ rows → ∀ st : List Reminder,
      ∀ x ∈ rows.foldl (postOne now) st, x.id ≠ r.id := by
  intro rows
  induction rows with
  | nil => intro hr; cases hr
  | cons a rows ih =>
    intro hr st
    rcases List.mem_cons.mp hr with h0 | h0
    · subst h0
      exact foldl_postOne_id_ne rows _ _ (postOne_once_id_ne hk)
    · exact ih h0 _

theorem filter_mapIte_ne (st : List Reminder) {rid i : String} (g : Reminder → Reminder)
    (hg : ∀ y, (g y).id = y.id) (hne : rid ≠ i) :
    (st.map (fun x => if x.id = rid then g x else x)).filter (fun x => x.id = i) =
      st.filter (fun x => x.id = i) := by
  rw [List.filter_map]
  have h1 : st.filter ((fun x => decide (x.id = i)) ∘ (fun x => if x.id = rid then g x else x)) =
      st.filter (fun x => x.id = i) := by
    apply List.filter_congr
    intro x _
    by_cases hx : x.id = rid <;> simp [hx, hg, hne]
  rw [h1]
  have h2 : ∀ x ∈ st.filter (fun x => x.id = i),
      (fun x => if x.id = rid then g x else x) x = x := by
    intro x hx
    have hi : x.id = i := by simpa using (List.mem_filter.mp hx).2
    show (if x.id = rid then g x else x) = x
    rw [if_neg (by rw [hi]; exact fun hh => hne hh.symm)]
  rw [List.map_congr_left h2]
  simp

theorem filter_mapIte_self (st : List Reminder) {rid : String} (g : Reminder → Reminder)
    (hg : ∀ y, (g y).id = y.id) :
    (st.map (fun x => if x.id = rid then g x else x)).filter (fun x => x.id = rid) =
      (st.filter (fun x => x.id = rid)).map g := by
  rw [List.filter_map]
  have h1 : st.filter ((fun x => decide (x.id = rid)) ∘ (fun x => if x.id = rid then g x else x)) =
      st.filter (fun x => x.id = rid) := by
    apply List.filter_congr
    intro x _
    by_cases hx : x.id = rid <;> simp [hx, hg]
  rw [h1]
  apply List.map_congr_left
  intro x hx
  have hi : x.id = rid := by simpa using (List.mem_filter.mp hx).2
  show (if x.id = rid then g x else x) = g x
  rw [if_pos hi]

theorem postOne_filter_ne {now : Nat} (st : List Reminder) {r : Reminder} {i : String}
    (hne : r.id ≠ i) :
    (postOne now st r).filter (fun x => x.id = i) = st.filter (fun x => x.id = i) := by
  simp only [postOne]
  split
  · simp only [deleteById]
    rw [List.filter_filter]
    apply List.filter_congr
    intro x _
    have hne' : ¬(i = r.id) := fun hh => hne hh.symm
    by_cases hx : x.id = i <;> simp [hx, hne']
  · split
    · rfl
    · exact filter_mapIte_ne st _ (fun y => rfl) hne
    · exact filter_mapIte_ne st _ (fun y => rfl) hne

theorem postOne_filter_recurring {now : Nat} (st : List Reminder) {r : Reminder} {v : Nat}
    (hknot : ¬(kindTag r = "" ∨ kindTag r = "once"))
    (hcalc : calcNextForKind (some (kindTag r)) r.cron_expr now = .value (some v)) :
    (postOne now st r).filter (fun x => x.id = r.id) =
      (st.filter (fun x => x.id = r.id)).map (fun x => { x with next_at := some v }) := by
  simp only [postOne]
  rw [if_neg hknot, hcalc]
  simp only [setNextAt]
  exact filter_mapIte_self st _ (fun y => rfl)

theorem foldl_postOne_filter_ne {now : Nat} (rows : List Reminder) (st : List Reminder)
    {i : String} (h : ∀ a ∈ rows, a.id ≠ i) :
    (rows.foldl (postOne now) st).filter (fun x => x.id = i) =
      st.filter (fun x => x.id = i) := by
  induction rows generalizing st with
  | nil => rfl
  | cons a rows ih =>
    rw [List.foldl_cons, ih _ (fun b hb => h b (List.mem_cons_of_mem _ hb)),
      postOne_filter_ne st (h a (List.mem_cons_self _ _))]

theorem calcNextForKind_cronKind (ks : String) (hks : ks = "repeat_cron" ∨ ks = "cron")
    (ce : Option String) (now : Nat) :
    calcNextForKind (some ks) ce now = .value (cronNext (pyStrip (ce.getD "")) (now + 1)) := by
  rcases hks with h | h <;> subst h <;> rfl

/-! ## Closed counterexamples and the code-bug evaluation -/

/-- Claim C1, counterexample: the code computes the new `next_at` of a
delivered recurring reminder from the current wall-clock time, not
from the previous `next_trigger_at`.  A `*/15` reminder with
`next_at = 0` delivered at `now = 960` (16 minutes late) gets
`next_at = 1800`, while advancing the rule from the previous trigger
instant gives `900`. -/
theorem claim_C1_counterexample :
    (runTick [c1late] 960 (fun _ => true)).state.map (fun r => r.next_at) = [some 1800] ∧
    specAdvanceFromPrevious "*/15 * * * *" 0 = some 900 ∧
    (some 1800 : Option Nat) ≠ some 900 := by
  decide

/-- Claim C2, counterexample: a due once reminder whose send fails
(`ok = false` for it) is *not* left untouched — post-processing deletes
the row unconditionally, so it cannot be retried on the next tick. -/
theorem claim_C2_counterexample :
    (runTick [c2item] 200 (fun _ => false)).sent = [("o", false)] ∧
    (runTick [c2item] 200 (fun _ => false)).state = [] := by
  decide

/-- Claim C3, counterexample: user 42 has the wrap-around quiet window
23→7 stored via `set_quiet_hours`, the current instant 72000 falls at
local (MSK, UTC+3) hour 23 — inside the window — yet the pipeline
delivers the due item in the current tick and removes it; nothing is
rescheduled to the end of the quiet window. -/
theorem claim_C3_counterexample :
    setQuietHours [] 42 (some 23) (some 7) = [⟨42, none, some 23, some 7⟩] ∧
    specQuietContains 23 7 ((72000 / 3600 % 24 + 3) % 24) = true ∧
    (runTick [c3item] 72000 (fun _ => true)).sent = [("q", true)] ∧
    (runTick [c3item] 72000 (fun _ => true)).state = [] := by
  decide

/-- Claim C5, evaluation at the failing input: for the rule `25:99`
(kind `repeat_daily`) the calculator raises instead of returning
`None`, the per-item handler swallows the exception, and the reminder
is left active and unpaused with its stale `next_at` — so it is
selected again on the next tick, never paused.  For contrast, an
unparseable *cron* rule (`oops`) is paused with `next_at` cleared in
the same update, exactly as the claim describes. -/
theorem claim_C5_code_bug :
    calcNextForKind (some "repeat_daily") (some "25:99") 200 = .raised ∧
    (runTick [c5item] 200 (fun _ => true)).selected = [c5item] ∧
    (runTick [c5item] 200 (fun _ => true)).state = [c5item] ∧
    selectDue (runTick [c5item] 200 (fun _ => true)).state 230 = [c5item] ∧
    c5item.paused = false ∧
    (runTick [c5cronItem] 200 (fun _ => true)).state =
      [{ c5cronItem with next_at := none, paused := true }] := by
  decide

/-- Claim C6, counterexample: the poll loop's due query has no lower
bound, so a once reminder 400 seconds older than the 10-minute
catch-up window is still selected (the windowed helper
`get_due_once_and_recurring` would exclude it, but the poll loop does
not use it). -/
theorem claim_C6_counterexample :
    c6old.remind_at = some 1000 ∧ c6old.paused = false ∧
    1000 < 2000 - 10 * 60 ∧
    selectDue [c6old] 2000 = [c6old] ∧
    getDueOnceAndRecurring 10 [c6old] 2000 = ([], []) := by
  decide

/-- Claim C7, counterexample: unsubscribing only deletes the
subscription row; the six scheduler jobs of the destination are not
removed, and the periodic reconciliation does not remove them either. -/
theorem claim_C7_counterexample :
    (reconcileTournament ⟨[(0, 1)], []⟩).jobs =
      ["tour_1_1355", "tour_1_1555", "tour_1_1755",
       "tour_1_1955", "tour_1_2155", "tour_1_2355"] ∧
    setTournamentSubscription (reconcileTournament ⟨[(0, 1)], []⟩) 1 false none =
      ⟨[], (reconcileTournament ⟨[(0, 1)], []⟩).jobs⟩ ∧
    reconcileTournament (setTournamentSubscription (reconcileTournament ⟨[(0, 1)], []⟩) 1 false none) =
      ⟨[], (reconcileTournament ⟨[(0, 1)], []⟩).jobs⟩ := by
  decide

/-! ## Amended claim theorems -/

/-- Claim C1 (amended): for every delivered cron-kind recurring
reminder, the pipeline recomputes `next_at` by advancing the rule from
the current wall-clock time (`croniter(expr, now + 1s)`), not from the
previous `next_trigger_at`: every surviving row with the reminder's id
gets `next_at = cronNext expr (now+1)` whatever its previous value
was.  (For a grid-aligned rule delivered within its interval — the
spec's Scenario B — this coincides with previous + interval, see the
witness; delivered later than one interval it does not, see the
counterexample.) -/
theorem claim_C1_amended (st : List Reminder) (now : Nat) (ok : String → Bool)
    (r : Reminder) (v : Nat)
    (hA : (runTick st now ok).aborted = false)
    (hr : r ∈ (runTick st now ok).selected)
    (hnd : ((runTick st now ok).selected.map (fun x => x.id)).Nodup)
    (hk : kindTag r = "repeat_cron" ∨ kindTag r = "cron")
    (hv : cronNext (pyStrip (r.cron_expr.getD "")) (now + 1) = some v) :
    (runTick st now ok).state.filter (fun x => x.id = r.id) =
      ((backfillNextAt st now).1.filter (fun x => x.id = r.id)).map
        (fun x => { x with next_at := some v }) := by
  have hknot : ¬(kindTag r = "" ∨ kindTag r = "once") := by
    rcases hk with h | h <;> rw [h] <;> decide
  have hcalc : calcNextForKind (some (kindTag r)) r.cron_expr now = .value (some v) := by
    rw [calcNextForKind_cronKind (kindTag r) hk r.cron_expr now, hv]
  cases hcond : (backfillNextAt st now).2 with
  | true => simp [runTick, hcond] at hA
  | false =>
    simp only [runTick, hcond, Bool.false_eq_true, if_false] at hr hnd ⊢
    obtain ⟨l1, l2, hsplit⟩ := List.append_of_mem hr
    rw [hsplit] at hnd ⊢
    rw [List.map_append, List.map_cons] at hnd
    obtain ⟨-, hcons, hdisj⟩ := List.nodup_append.mp hnd
    have h2 : ∀ a ∈ l2, a.id ≠ r.id := by
      intro a ha heq
      exact (List.nodup_cons.mp hcons).1 (List.mem_map.mpr ⟨a, ha, heq⟩)
    have h1 : ∀ a ∈ l1, a.id ≠ r.id := by
      intro a ha heq
      have hmem : a.id ∈ l1.map (fun x => x.id) := List.mem_map.mpr ⟨a, ha, rfl⟩
      have hmem2 : a.id ∈ r.id :: l2.map (fun x => x.id) := by
        rw [heq]; exact List.mem_cons_self _ _
      exact hdisj hmem hmem2
    rw [List.foldl_append, List.foldl_cons]
    rw [foldl_postOne_filter_ne l2 _ h2]
    rw [postOne_filter_recurring _ hknot hcalc]
    rw [foldl_postOne_filter_ne l1 _ h1]

/-- Claim C1, witness: the spec's Scenario B instance.  A `*/15`
reminder with `next_at = 0` delivered at `now = 1` (one second after
its trigger) ends up with `next_at = 900 = T + 15min`. -/
theorem claim_C1_witness :
    (runTick [c1late] 1 (fun _ => true)).state.filter (fun x => x.id = c1late.id) =
      [{ c1late with next_at := some 900 }] :=
  (claim_C1_amended [c1late] 1 (fun _ => true) c1late 900 (by decide) (by decide)
    (by decide) (Or.inr (by decide)) (by decide)).trans (by decide)

/-- Claim C2 (amended): the delivery outcome is never consulted — the
tick's resulting store and selected batch are identical whatever the
outcome function says — and every selected once-kind reminder is
deleted from the store by post-processing, even when its send failed,
so a failed once delivery is never retried. -/
theorem claim_C2_amended :
    (∀ (st : List Reminder) (now : Nat) (ok ok' : String → Bool),
      (runTick st now ok).state = (runTick st now ok').state ∧
      (runTick st now ok).selected = (runTick st now ok').selected) ∧
    (∀ (st : List Reminder) (now : Nat) (ok : String → Bool) (r : Reminder),
      r ∈ (runTick st now ok).selected → (kindTag r = "" ∨ kindTag r = "once") →
      (runTick st now ok).state.filter (fun x => x.id = r.id) = []) := by
  constructor
  · intro st now ok ok'
    cases hcond : (backfillNextAt st now).2 <;> simp [runTick, hcond]
  · intro st now ok r hr hk
    cases hcond : (backfillNextAt st now).2 with
    | true => simp [runTick, hcond] at hr
    | false =>
      simp only [runTick, hcond, Bool.false_eq_true, if_false] at hr ⊢
      rw [List.filter_eq_nil_iff]
      intro a ha
      simpa using foldl_postOne_once_absent hk _ hr _ a ha

/-- Claim C2, witness: the failed-send tick of `c2item` produces the
same store as a successful one, and the once row is gone. -/
theorem claim_C2_witness :
    (runTick [c2item] 200 (fun _ => false)).state =
      (runTick [c2item] 200 (fun _ => true)).state ∧
    (runTick [c2item] 200 (fun _ => false)).state.filter (fun x => x.id = c2item.id) = [] :=
  ⟨(claim_C2_amended.1 [c2item] 200 (fun _ => false) (fun _ => true)).1,
   claim_C2_amended.2 [c2item] 200 (fun _ => false) c2item (by decide) (by decide)⟩

/-- Claim C3 (amended): the pipeline never defers anything.  Quiet
hours are stored by `set_quiet_hours` but no component of the
scheduler reads them: every item selected as due is dispatched in the
same tick (its id appears in `sent` with its outcome), for every
preference configuration — the tick does not even take the preference
store as an input. -/
theorem claim_C3_amended :
    ∀ (st : List Reminder) (now : Nat) (ok : String → Bool),
      (runTick st now ok).sent =
        (runTick st now ok).selected.map (fun r => (r.id, ok r.id)) ∧
      ((runTick st now ok).aborted = false →
        (runTick st now ok).selected = selectDue (backfillNextAt st now).1 now) := by
  intro st now ok
  cases hcond : (backfillNextAt st now).2 <;> simp [runTick, hcond]

/-- Claim C3, witness: the quiet-hours fixture tick really selects and
dispatches the due batch of the backfilled store. -/
theorem claim_C3_witness :
    (runTick [c3item] 72000 (fun _ => true)).selected =
      selectDue (backfillNextAt [c3item] 72000).1 72000 :=
  (claim_C3_amended [c3item] 72000 (fun _ => true)).2 (by decide)

/-! ## Strictness of the next-trigger computation (claim C4) -/

theorem cronSearch_le {sp : CronSpec} :
    ∀ fuel t n : Nat, cronSearch sp fuel t = some n → t ≤ n := by
  intro fuel
  induction fuel with
  | zero => intro t n h; cases h
  | succ fuel ih =>
    intro t n h
    simp only [cronSearch] at h
    split at h
    · injection h with h1; omega
    · exact le_trans (by omega) (ih (t + 60) n h)

theorem cronNext_gt (expr : String) (base n : Nat) (h : cronNext expr base = some n) :
    base < n := by
  simp only [cronNext] at h
  split at h
  · cases h
  · split at h
    · have h1 := cronSearch_le _ _ _ h
      have h2 := Nat.div_add_mod base 60
      have h3 : base % 60 < 60 := Nat.mod_lt _ (by omega)
      omega
    · cases h

theorem skipDaysWhile_le (cond : Nat → Bool) :
    ∀ fuel c : Nat, c ≤ skipDaysWhile cond fuel c := by
  intro fuel
  induction fuel with
  | zero => intro c; exact le_refl c
  | succ fuel ih =>
    intro c
    simp only [skipDaysWhile]
    split
    · exact le_trans (by omega) (ih (c + 86400))
    · exact le_refl c

theorem calcNextForKind_gt (kind cronExpr : Option String) (now n : Nat)
    (h : calcNextForKind kind cronExpr now = .value (some n)) : now < n := by
  simp only [calcNextForKind] at h
  have hd := Nat.div_add_mod now 86400
  have hm : now % 86400 < 86400 := Nat.mod_lt now (by omega)
  split at h
  · exact absurd h (by simp)
  · split at h
    · injection h with h1
      exact Nat.lt_of_succ_lt (cronNext_gt _ _ _ h1)
    · split at h
      · exact absurd h (by simp)
      · split at h
        · exact absurd h (by simp)
        · split at h
          · injection h with h1
            injection h1 with h2
            subst h2
            split <;> omega
          · split at h
            · injection h with h1
              injection h1 with h2
              subst h2
              refine lt_of_lt_of_le ?_ (skipDaysWhile_le _ 7 _)
              split <;> omega
            · split at h
              · injection h with h1
                injection h1 with h2
                subst h2
                refine lt_of_lt_of_le ?_ (skipDaysWhile_le _ 7 _)
                split <;> omega
              · exact absurd h (by simp)

/-- Claim C4: every successful next-trigger computation returns an
instant strictly after the reference instant — `_calc_next_for_kind`
relative to `now`, and the cron evaluator relative to its base — and
consequently an advance performed while the item is due
(`prev ≤ now`) strictly increases its `next_trigger_at`, so repeated
advances form a strictly increasing sequence. -/
theorem claim_C4_next_strictly_future :
    (∀ (kind cronExpr : Option String) (now n : Nat),
      calcNextForKind kind cronExpr now = .value (some n) → now < n) ∧
    (∀ (expr : String) (base n : Nat), cronNext expr base = some n → base < n) ∧
    (∀ (kind cronExpr : Option String) (now prev n : Nat),
      calcNextForKind kind cronExpr now = .value (some n) → prev ≤ now → prev < n) :=
  ⟨calcNextForKind_gt, cronNext_gt,
   fun kind ce now _prev n h hle => lt_of_le_of_lt hle (calcNextForKind_gt kind ce now n h)⟩

/-- Claim C4, witness: concrete instances of all three conjuncts. -/
theorem claim_C4_witness :
    calcNextForKind (some "repeat_daily") (some "09:30") 0 = .value (some 34200) ∧
    0 < 34200 ∧
    cronNext "*/15 * * * *" 2 = some 900 ∧
    (2 : Nat) < 900 ∧
    (100 : Nat) < 34200 :=
  ⟨by decide,
   claim_C4_next_strictly_future.1 (some "repeat_daily") (some "09:30") 0 34200 (by decide),
   by decide,
   claim_C4_next_strictly_future.2.1 "*/15 * * * *" 2 900 (by decide),
   claim_C4_next_strictly_future.2.2 (some "repeat_daily") (some "09:30") 200 100 34200
     (by decide) (by decide)⟩

/-! ## Due selection (claim C6) -/

/-- Claim C6 (amended): the poll loop's own due query selects exactly
the non-paused rows with `COALESCE(next_at, remind_at) ≤ now` — with
*no* catch-up lower bound (when the batch fits the `LIMIT 50`); the
separate helper `get_due_once_and_recurring` does implement the closed
window `[now - window, now]` (boundary included) for both kinds, but
the poll loop does not use it. -/
theorem claim_C6_amended :
    (∀ (st : List Reminder) (now : Nat) (r : Reminder),
      (st.filter (fun x => !x.paused && dueAt x now)).length ≤ 50 →
      (r ∈ selectDue st now ↔ r ∈ st ∧ r.paused = false ∧ dueAt r now = true)) ∧
    (∀ (w : Nat) (st : List Reminder) (now : Nat) (r : Reminder),
      r ∈ (getDueOnceAndRecurring w st now).1 ↔
        r ∈ st ∧ r.kind = some "once" ∧ r.paused = false ∧
          optBetween r.remind_at (now - w * 60) now = true) ∧
    (∀ (w : Nat) (st : List Reminder) (now : Nat) (r : Reminder),
      r ∈ (getDueOnceAndRecurring w st now).2 ↔
        r ∈ st ∧ r.kind = some "cron" ∧ r.paused = false ∧
          optBetween r.next_at (now - w * 60) now = true) := by
  refine ⟨?_, ?_, ?_⟩
  · intro st now r hlen
    unfold selectDue
    rw [List.take_of_length_le (by rw [(List.perm_insertionSort _ _).length_eq]; exact hlen)]
    rw [(List.perm_insertionSort _ _).mem_iff, List.mem_filter]
    simp [Bool.and_eq_true, Bool.not_eq_true']
  · intro w st now r
    simp only [getDueOnceAndRecurring]
    rw [List.mem_filter]
    simp [Bool.and_eq_true, Bool.not_eq_true', and_assoc]
  · intro w st now r
    simp only [getDueOnceAndRecurring]
    rw [List.mem_filter]
    simp [Bool.and_eq_true, Bool.not_eq_true', and_assoc]

/-- Claim C6, witness: the boundary item at exactly `now - window` is
selected by both the poll query and the windowed helper. -/
theorem claim_C6_witness :
    c6boundary ∈ selectDue [c6boundary] 2000 ∧
    c6boundary ∈ (getDueOnceAndRecurring 10 [c6boundary] 2000).1 :=
  ⟨(claim_C6_amended.1 [c6boundary] 2000 c6boundary (by decide)).mpr
      ⟨by decide, by decide, by decide⟩,
   (claim_C6_amended.2.1 10 [c6boundary] 2000 c6boundary).mpr
      ⟨by decide, by decide, by decide, by decide⟩⟩

/-! ## The fixed-slot broadcaster (claims C7 and C8) -/

theorem mem_slotFold (c : Int) :
    ∀ (slots : List (Nat × Nat)) (js : List String) (j : String), j ∈ js →
      j ∈ slots.foldl (fun js slot => js.filter (· ≠ jobId c slot) ++ [jobId c slot]) js := by
  intro slots
  induction slots with
  | nil => intro js j hj; exact hj
  | cons s ss ih =>
    intro js j hj
    apply ih
    by_cases he : j = jobId c s
    · rw [he]; exact List.mem_append_right _ (List.mem_singleton_self _)
    · exact List.mem_append_left _ (List.mem_filter.mpr ⟨hj, by simpa using he⟩)

/-- Claim C7 (amended): unsubscribing only deletes the subscription
rows for the destination; the scheduler's job store is untouched, and
the reconciliation pass never removes a job — every existing job id
survives it — so the destination's six slot jobs keep firing until the
process restarts. -/
theorem claim_C7_amended :
    (∀ (st : TournamentState) (chat : Int) (userId : Option Int),
      (setTournamentSubscription st chat false userId).jobs = st.jobs ∧
      (setTournamentSubscription st chat false userId).subscribers =
        st.subscribers.filter (fun p => ¬(p.2 = chat ∧ p.1 = userId.getD 0))) ∧
    (∀ (subs : List Int) (jobs : List String) (j : String),
      j ∈ jobs → j ∈ ensureTournamentJobs subs jobs) := by
  constructor
  · intro st chat uid
    constructor <;> simp [setTournamentSubscription]
  · intro subs
    induction subs with
    | nil => intro jobs j hj; exact hj
    | cons c cs ih =>
      intro jobs j hj
      exact ih _ _ (mem_slotFold c TOURNAMENT_MINUTES jobs j hj)

/-- Claim C7, witness: unsubscribe keeps the job store, and a job id
survives reconciliation. -/
theorem claim_C7_witness :
    (setTournamentSubscription ⟨[(0, 1)], ["tour_1_1355"]⟩ 1 false none).jobs =
      ["tour_1_1355"] ∧
    "tour_1_1355" ∈ ensureTournamentJobs [7] ["tour_1_1355"] :=
  ⟨(claim_C7_amended.1 ⟨[(0, 1)], ["tour_1_1355"]⟩ 1 none).1,
   claim_C7_amended.2 [7] ["tour_1_1355"] "tour_1_1355" (by decide)⟩

theorem count_slotFold (c : Int) (x : String) :
    ∀ (slots : List (Nat × Nat)) (js : List String),
      (slots.foldl (fun js slot => js.filter (· ≠ jobId c slot) ++ [jobId c slot]) js).count x =
        if x ∈ slots.map (jobId c) then 1 else js.count x := by
  intro slots
  induction slots with
  | nil => intro js; simp
  | cons s ss ih =>
    intro js
    rw [List.foldl_cons, ih]
    have hstep : (js.filter (· ≠ jobId c s) ++ [jobId c s]).count x =
        if x = jobId c s then 1 else js.count x := by
      rw [List.count_append]
      by_cases hx : x = jobId c s
      · have hz : (js.filter (· ≠ jobId c s)).count x = 0 := by
          rw [List.count_eq_zero]
          intro hmem
          have h5 := (List.mem_filter.mp hmem).2
          rw [hx] at h5
          simp at h5
        rw [hz, if_pos hx, hx]
        simp
      · rw [List.count_filter (by simpa using hx), if_neg hx]
        simp [hx]
    rw [hstep]
    by_cases h1 : x ∈ ss.map (jobId c)
    · rw [if_pos h1, if_pos (by rw [List.map_cons]; exact List.mem_cons_of_mem _ h1)]
    · rw [if_neg h1]
      by_cases h2 : x = jobId c s
      · rw [if_pos h2, if_pos (by rw [List.map_cons, h2]; exact List.mem_cons_self _ _)]
      · have hn : x ∉ (s :: ss).map (jobId c) := by
          rw [List.map_cons]
          intro hmem
          rcases List.mem_cons.mp hmem with hh | hh
          · exact h2 hh
          · exact h1 hh
        rw [if_neg h2, if_neg hn]

theorem count_ensure (x : String) :
    ∀ (subs : List Int) (jobs : List String),
      (ensureTournamentJobs subs jobs).count x =
        if ∃ c ∈ subs, x ∈ TOURNAMENT_MINUTES.map (jobId c) then 1 else jobs.count x := by
  intro subs
  induction subs with
  | nil => intro jobs; simp [ensureTournamentJobs]
  | cons c cs ih =>
    intro jobs
    have hstep : ensureTournamentJobs (c :: cs) jobs =
        ensureTournamentJobs cs (registerDailyJobsForChat c jobs) := rfl
    rw [hstep, ih]
    rw [show (registerDailyJobsForChat c jobs).count x =
      if x ∈ TOURNAMENT_MINUTES.map (jobId c) then 1 else jobs.count x from
      count_slotFold c x TOURNAMENT_MINUTES jobs]
    by_cases h1 : ∃ c' ∈ cs, x ∈ TOURNAMENT_MINUTES.map (jobId c')
    · rw [if_pos h1]
      obtain ⟨c', hc', hx⟩ := h1
      rw [if_pos ⟨c', List.mem_cons_of_mem _ hc', hx⟩]
    · rw [if_neg h1]
      by_cases h2 : x ∈ TOURNAMENT_MINUTES.map (jobId c)
      · rw [if_pos h2, if_pos ⟨c, List.mem_cons_self c cs, h2⟩]
      · have hn : ¬∃ c' ∈ c :: cs, x ∈ TOURNAMENT_MINUTES.map (jobId c') := by
          rintro ⟨c', hc', hx⟩
          rcases List.mem_cons.mp hc' with hh | hh
          · exact h2 (hh ▸ hx)
          · exact h1 ⟨c', hh, hx⟩
        rw [if_neg h2, if_neg hn]

/-- Claim C8: reconciliation is idempotent at the job-multiset level —
re-running `_ensure_tournament_jobs` for the same subscription list
leaves every job id with the same multiplicity (so no new items and no
duplicates) — and each subscribed destination has exactly one job per
fixed slot, because the job id is derived deterministically from
`(destination, slot)` and `replace_existing` removes any previous
job with the same id. -/
theorem claim_C8_idempotent :
    (∀ (subs : List Int) (jobs : List String) (x : String),
      (ensureTournamentJobs subs (ensureTournamentJobs subs jobs)).count x =
        (ensureTournamentJobs subs jobs).count x) ∧
    (∀ (subs : List Int) (jobs : List String) (c : Int) (slot : Nat × Nat),
      c ∈ subs → slot ∈ TOURNAMENT_MINUTES →
      (ensureTournamentJobs subs jobs).count (jobId c slot) = 1) := by
  constructor
  · intro subs jobs x
    rw [count_ensure x subs, count_ensure x subs]
    by_cases h : ∃ c ∈ subs, x ∈ TOURNAMENT_MINUTES.map (jobId c)
    · rw [if_pos h, if_pos h]
    · rw [if_neg h, if_neg h]
  · intro subs jobs c slot hc hs
    rw [count_ensure]
    exact if_pos ⟨c, hc, List.mem_map.mpr ⟨slot, hs, rfl⟩⟩

/-- Claim C8, witness: a freshly provisioned destination has exactly
one job for the 13:55 slot, and re-running reconciliation leaves the
multiplicity unchanged. -/
theorem claim_C8_witness :
    (ensureTournamentJobs [5] []).count (jobId 5 (13, 55)) = 1 ∧
    (ensureTournamentJobs [5] (ensureTournamentJobs [5] [])).count "tour_5_1355" =
      (ensureTournamentJobs [5] []).count "tour_5_1355" :=
  ⟨claim_C8_idempotent.2 [5] [] 5 (13, 55) (by decide) (by decide),
   claim_C8_idempotent.1 [5] [] "tour_5_1355"⟩

/-! ## `add_recurring_reminder` (claim C9) -/

/-- Claim C9: `add_recurring_reminder` raises `ValueError` exactly when
the normalised cron expression cannot produce a next instant, and then
nothing is inserted; on success the one appended row has
`kind = 'cron'`, `paused = false`, the normalised expression, and a
non-null `next_at` which is the computed next instant when the caller
supplies none. -/
theorem claim_C9_add_recurring :
    ∀ (db : List Reminder) (uid chat : Int) (text cronExprRaw : String)
      (nextAt : Option Nat) (createdBy : Option Int) (now : Nat) (newId : String),
      (addRecurringReminder db uid chat text cronExprRaw nextAt createdBy now newId = .error ()
        ↔ cronNext (normalizeCron cronExprRaw) now = none) ∧
      (∀ st', addRecurringReminder db uid chat text cronExprRaw nextAt createdBy now newId
          = .ok st' →
        ∃ row, st' = db ++ [row] ∧ row.kind = some "cron" ∧ row.paused = false ∧
          row.cron_expr = some (normalizeCron cronExprRaw) ∧ row.next_at.isSome = true ∧
          (nextAt = none → row.next_at = cronNext (normalizeCron cronExprRaw) now)) := by
  intro db uid chat text expr nextAt createdBy now newId
  constructor
  · constructor
    · intro h
      cases hc : cronNext (normalizeCron expr) now with
      | none => rfl
      | some v => simp [addRecurringReminder, hc] at h
    · intro h
      simp [addRecurringReminder, h]
  · intro st' h
    simp only [addRecurringReminder] at h
    cases hc : cronNext (normalizeCron expr) now with
    | none => rw [hc] at h; cases h
    | some v =>
      rw [hc] at h
      injection h with h1
      refine ⟨_, h1.symm, rfl, rfl, rfl, ?_, ?_⟩
      · cases nextAt <;> rfl
      · intro hna
        simp [hna, hc]

/-- Claim C9, witness: a garbage expression is rejected with the store
untouched, and a successful insert of `ежедневно 9:30` has the
normalised rule `30 9 * * *` and the computed `next_at`. -/
theorem claim_C9_witness :
    cronNext (normalizeCron "garbage") 0 = none ∧
    (∃ row : Reminder,
      [(⟨"n1", 1, 10, "txt", some "cron", some "30 9 * * *", none, some 34200, false, some 1,
        0⟩ : Reminder)] = ([] : List Reminder) ++ [row] ∧
      row.kind = some "cron" ∧ row.paused = false ∧
      row.cron_expr = some (normalizeCron "ежедневно 9:30") ∧ row.next_at.isSome = true ∧
      ((none : Option Nat) = none → row.next_at = cronNext (normalizeCron "ежедневно 9:30") 0)) :=
  ⟨(claim_C9_add_recurring [] 1 10 "t" "garbage" none none 0 "x").1.mp (by rfl),
   (claim_C9_add_recurring [] 1 10 "txt" "ежедневно 9:30" none none 0 "n1").2 _ (by rfl)⟩

/-! ## `resolve_selector_to_id` (claim C10) -/

theorem mem_of_mem_activeForChat {db : List Reminder} {chat : Int} {p : Bool} {r : Reminder}
    (hr : r ∈ getActiveRemindersForChat db chat p) : r ∈ db ∧ r.chat_id = chat := by
  simp only [getActiveRemindersForChat] at hr
  rw [(List.perm_insertionSort _ _).mem_iff] at hr
  cases p with
  | true =>
    rw [if_pos rfl] at hr
    exact ⟨(List.mem_filter.mp hr).1, by simpa using (List.mem_filter.mp hr).2⟩
  | false =>
    rw [if_neg (by simp)] at hr
    have h1 := List.mem_filter.mp hr
    exact ⟨(List.mem_filter.mp h1.1).1, by simpa using (List.mem_filter.mp h1.1).2⟩

theorem resolveIndexPath_sound {db : List Reminder} {chat : Int} {uid : Option Int}
    {idxOpt : Option Int} {rid : String}
    (h : resolveIndexPath db chat uid idxOpt = some rid) :
    ∃ r, r ∈ db ∧ r.id = rid ∧ r.chat_id = chat ∧
      ∀ u, uid = some u → r.created_by = some u := by
  cases idxOpt with
  | none => cases h
  | some idx =>
    cases uid with
    | none =>
      simp only [resolveIndexPath] at h
      split at h
      · cases h
      · split at h
        · obtain ⟨r, hget, hid⟩ := Option.map_eq_some'.mp h
          have hmem : r ∈ getActiveRemindersForChat db chat true := List.get?_mem hget
          obtain ⟨hdb, hchat⟩ := mem_of_mem_activeForChat hmem
          exact ⟨r, hdb, hid, hchat, fun u hu => by cases hu⟩
        · cases h
    | some u =>
      simp only [resolveIndexPath] at h
      split at h
      · cases h
      · split at h
        · obtain ⟨r, hget, hid⟩ := Option.map_eq_some'.mp h
          have hmem : r ∈ (getActiveRemindersForChat db chat true).filter
              (fun r => r.created_by == some u) := List.get?_mem hget
          have hcb : r.created_by = some u := by
            simpa using (List.mem_filter.mp hmem).2
          obtain ⟨hdb, hchat⟩ := mem_of_mem_activeForChat (List.mem_filter.mp hmem).1
          refine ⟨r, hdb, hid, hchat, fun u' hu => ?_⟩
          injection hu with hu'
          rw [← hu']
          exact hcb
        · cases h

/-- Claim C10: `resolve_selector_to_id` only ever returns the id of a
reminder of the given chat whose creator matches the given user (when
one is given); a non-numeric non-UUID selector, a non-positive index,
and an index beyond the (creator-filtered) list all yield `None`. -/
theorem claim_C10_resolve :
    (∀ (db : List Reminder) (chat : Int) (sel : PySelector) (uid : Option Int) (rid : String),
      resolveSelectorToId db chat sel uid = some rid →
      ∃ r, r ∈ db ∧ r.id = rid ∧ r.chat_id = chat ∧
        ∀ u, uid = some u → r.created_by = some u) ∧
    (∀ (db : List Reminder) (chat : Int) (s : String) (uid : Option Int),
      s.data.contains '-' = false → pyInt? s = none →
      resolveSelectorToId db chat (.str s) uid = none) ∧
    (∀ (db : List Reminder) (chat : Int) (n : Int) (uid : Option Int),
      n ≤ 0 → resolveSelectorToId db chat (.int n) uid = none) ∧
    (∀ (db : List Reminder) (chat : Int) (n : Int),
      ¬ n ≤ 0 → (getActiveRemindersForChat db chat true).length < n.toNat →
      resolveSelectorToId db chat (.int n) none = none) ∧
    (∀ (db : List Reminder) (chat : Int) (n : Int) (u : Int),
      ¬ n ≤ 0 →
      ((getActiveRemindersForChat db chat true).filter
        (fun r => r.created_by == some u)).length < n.toNat →
      resolveSelectorToId db chat (.int n) (some u) = none) := by
  refine ⟨?_, ?_, ?_, ?_, ?_⟩
  · intro db chat sel uid rid h
    cases sel with
    | str s =>
      simp only [resolveSelectorToId] at h
      by_cases hd : s.data.contains '-'
      · rw [if_pos hd] at h
        cases hrow : getReminderById db s with
        | none => unfold resolveUuidPath at h; rw [hrow] at h; cases h
        | some row =>
          unfold resolveUuidPath at h
          rw [hrow] at h
          have h' : (if row.chat_id = chat ∧ (uid = none ∨ row.created_by = uid) then
              some row.id else none) = some rid := h
          split at h'
          · rename_i hcond
            injection h' with h1
            have hmem : row ∈ db := List.mem_of_find?_eq_some hrow
            refine ⟨row, hmem, h1, hcond.1, ?_⟩
            intro u hu
            rcases hcond.2 with h2 | h2
            · rw [h2] at hu; cases hu
            · rw [hu] at h2; exact h2
          · cases h'
      · rw [if_neg hd] at h
        exact resolveIndexPath_sound h
    | int n =>
      simp only [resolveSelectorToId] at h
      exact resolveIndexPath_sound h
  · intro db chat s uid hd hpy
    simp only [resolveSelectorToId]
    rw [if_neg (by rw [hd]; simp), hpy]
    rfl
  · intro db chat n uid hn
    cases uid with
    | none =>
      simp only [resolveSelectorToId, resolveIndexPath]
      rw [if_pos hn]
    | some u =>
      simp only [resolveSelectorToId, resolveIndexPath]
      rw [if_pos hn]
  · intro db chat n hn hlen
    simp only [resolveSelectorToId, resolveIndexPath]
    rw [if_neg hn, if_neg (by omega)]
  · intro db chat n u hn hlen
    simp only [resolveSelectorToId, resolveIndexPath]
    rw [if_neg hn, if_neg (by omega)]

/-- Claim C10, witness: index selector `1` with a matching creator
resolves to the only reminder of the chat, which indeed belongs to
that chat and creator. -/
theorem claim_C10_witness :
    ∃ r : Reminder,
      r ∈ [(⟨"aaaa-bbbb", 7, 10, "t", some "once", none, some 100, none, false, some 7,
        0⟩ : Reminder)] ∧
      r.id = "aaaa-bbbb" ∧ r.chat_id = 10 ∧
      ∀ u, (some 7 : Option Int) = some u → r.created_by = some u :=
  claim_C10_resolve.1
    [⟨"aaaa-bbbb", 7, 10, "t", some "once", none, some 100, none, false, some 7, 0⟩]
    10 (.int 1) (some 7) "aaaa-bbbb" (by decide)

end Remindly
